import Mathlib

/-!
Verification development for the `lambda_tyt_v1` document-extraction pipeline.

The JavaScript sources (`src/services/enhancedTextract.js` and the
`SimplifiedPDFConverter` module) are embedded shallowly: JS strings become
`List Char`, byte buffers become `List Nat`, the file system and the external
Textract/pdf2pic/sharp collaborators become explicit oracle fields of an
environment record, and thrown exceptions become `Except` values.
-/

namespace LambdaTyT

/-- JS strings are modelled as lists of characters. -/
abbrev Str := List Char

/-- Byte values 0..255 as natural numbers. -/
abbrev Byte := Nat

/-- Character list of a Lean string literal (used to write JS string literals). -/
def str (s : String) : Str := s.data

/-- Node `buffer.toString()` (utf8 decoding), modelled byte-wise: an ASCII byte
decodes to itself; any byte with the high bit set never decodes to an ASCII
character, which we model with the replacement character U+FFFD. All string
comparisons in the source are against pure-ASCII literals, for which this
byte-wise model agrees with real UTF-8 decoding. -/
def decodeUtf8Byte (b : Byte) : Char :=
  if b < 128 then Char.ofNat b else Char.ofNat 65533

/-- `buffer.toString()` on a whole buffer. -/
def bufToString (l : List Byte) : Str := l.map decodeUtf8Byte

/-- Node `buffer.toString('ascii')` masks the high bit of every byte. -/
def asciiByte (b : Byte) : Char := Char.ofNat (b % 128)

/-- `buffer.toString('ascii', ...)` on a byte list. -/
def bufToAscii (l : List Byte) : Str := l.map asciiByte

/-- The whitespace characters `String.prototype.trim` strips (the ones that
matter for this code base). -/
def isJsWhitespace (c : Char) : Bool :=
  c == ' ' || c == '\t' || c == '\n' || c == '\r'

/-- Strip trailing JS whitespace. -/
def trimEnd (l : Str) : Str := (l.reverse.dropWhile isJsWhitespace).reverse

/-- JS `String.prototype.trim`: strip whitespace from both ends. -/
def jsTrim (l : Str) : Str := (trimEnd l).dropWhile isJsWhitespace

/-- JS `String.prototype.includes`: does `needle` occur inside the haystack? -/
def containsSub : Str → Str → Bool
  | [], needle => needle.isEmpty
  | c :: t, needle => needle.isPrefixOf (c :: t) || containsSub t needle

/-- Number of non-overlapping occurrences found left to right, as counted by a
JS global-regex `match`: after a match the search resumes past its end. -/
def countOcc : Str → Str → Nat
  | [], _ => 0
  | c :: t, needle =>
    if needle.isPrefixOf (c :: t) then 1 + countOcc (t.drop (needle.length - 1)) needle
    else countOcc t needle
termination_by l _ => l.length
decreasing_by
  · simp only [List.length_cons, List.length_drop]
    omega
  · simp only [List.length_cons]
    omega

/-- Result object of `SimplifiedPDFConverter.assessPDFQuality`. -/
structure QualityResult where
  score : Int
  isHighQuality : Bool
  hasNativeText : Bool
  hasImages : Bool
  imageCount : Nat
  assessment : Str
deriving DecidableEq

/-- `SimplifiedPDFConverter.assessPDFQuality`: score the first
`min(length, 10000)` bytes of a PDF buffer, decoded with the `'ascii'`
encoding. -/
def assessPDFQuality (pdfBuffer : List Byte) : QualityResult :=
  let sampleSize := min pdfBuffer.length 10000
  let bufferStr := bufToAscii (pdfBuffer.take sampleSize)
  let score0 : Int := 0
  let score1 :=
    if containsSub bufferStr (str "/Type/Font") || containsSub bufferStr (str "/Subtype/Type1")
    then score0 + 30 else score0
  let score2 :=
    if containsSub bufferStr (str "/Type/XObject") && containsSub bufferStr (str "/Subtype/Image")
    then score1 - 20 else score1
  let score3 :=
    if containsSub bufferStr (str "/Filter/FlateDecode") then score2 + 10 else score2
  let imageRatio := countOcc bufferStr (str "/Subtype/Image")
  let score4 := if imageRatio > 2 then score3 - 15 else score3
  let isHighQuality := decide (score4 ≥ 20)
  { score := score4
    isHighQuality := isHighQuality
    hasNativeText := containsSub bufferStr (str "/Type/Font")
    hasImages := containsSub bufferStr (str "/Subtype/Image")
    imageCount := imageRatio
    assessment := if isHighQuality then str "Texto nativo" else str "Probablemente escaneado" }

/-- `PDF_CONVERSION_CONFIG.CONVERT_TO_IMAGE_TYPES`. -/
def CONVERT_TO_IMAGE_TYPES : List Str :=
  [str "soporte_prueba_saberProtyt", str "diploma_bachiller", str "diploma_tecnico",
   str "diploma_tecnologo", str "titulo_profesional"]

/-- `PDF_CONVERSION_CONFIG.MIN_SIZE_FOR_CONVERSION` (50 KB). -/
def MIN_SIZE_FOR_CONVERSION : Nat := 50 * 1024

/-- `PDF_CONVERSION_CONFIG.MAX_SIZE_FOR_CONVERSION` (20 MB). -/
def MAX_SIZE_FOR_CONVERSION : Nat := 20 * 1024 * 1024

/-- `PDF_CONVERSION_CONFIG.QUALITY_THRESHOLD`. -/
def QUALITY_THRESHOLD : Int := 15

/-- JS truthiness of an optional string (`null`/`undefined` and `""` are falsy). -/
def jsTruthyStr : Option Str → Bool
  | none => false
  | some s => !s.isEmpty

/-- `SimplifiedPDFConverter.isPDF`. The source calls
`fs.readFile(filePath, { start: 0, end: 4 })`; `fs.readFile` has no
`start`/`end` options (those exist only on read streams), so the whole file is
read and its decoded contents compared for equality against `"%PDF"`. -/
def isPDF (fileContent : List Byte) : Bool :=
  bufToString fileContent == str "%PDF"

/-- `SimplifiedTextractService.shouldAttemptConversion`. `fileContent` is the
content of `filePath` (read by `isPDF`), `buffer` the already-read document
buffer; at the single call site both are the same file. -/
def shouldAttemptConversion (fileContent : List Byte) (documentType : Option Str)
    (buffer : List Byte) : Bool :=
  if isPDF fileContent = false then false
  else if (jsTruthyStr documentType
      && CONVERT_TO_IMAGE_TYPES.contains (documentType.getD [])) = false then false
  else if buffer.length < MIN_SIZE_FOR_CONVERSION then false
  else if buffer.length > MAX_SIZE_FOR_CONVERSION then false
  else decide ((assessPDFQuality buffer).score < QUALITY_THRESHOLD)

/-- The four conditions of the spec's `shouldConvert` contract (spec section 4.2),
stated from the spec's words: the file's FIRST BYTES match the `%PDF`
signature, the docType is in the allow-list, the length is within
`[minSizeForConversion, maxSizeForConversion]`, and the quality score is
strictly below the threshold. -/
def specShouldConvertConditions (fileContent : List Byte) (documentType : Option Str)
    (buffer : List Byte) : Bool :=
  (str "%PDF").isPrefixOf (bufToString fileContent)
  && (match documentType with
      | none => false
      | some d => CONVERT_TO_IMAGE_TYPES.contains d)
  && decide (MIN_SIZE_FOR_CONVERSION ≤ buffer.length)
  && decide (buffer.length ≤ MAX_SIZE_FOR_CONVERSION)
  && decide ((assessPDFQuality buffer).score < QUALITY_THRESHOLD)

/-! ## Textract dispatch and aggregation (`enhancedTextract.js`) -/

/-- `SIZE_LIMITS.SYNC_BYTES` (5 MiB). -/
def SYNC_BYTES : Nat := 5 * 1024 * 1024

/-- `SIZE_LIMITS.ASYNC_BYTES` (500 MiB). -/
def ASYNC_BYTES : Nat := 500 * 1024 * 1024

/-- The `structuredDocuments` list of `shouldUseAnalyzeDocument`. -/
def structuredDocuments : List Str := [str "soporte_prueba_saberProtyt"]

/-- `SimplifiedTextractService.shouldUseAnalyzeDocument`. -/
def shouldUseAnalyzeDocument (fileSize : Nat) (documentType : Option Str) : Bool :=
  if jsTruthyStr documentType && structuredDocuments.contains (documentType.getD []) then true
  else if fileSize < 1024 * 1024 then false
  else true

/-- The `DOCUMENT_FEATURES` table. -/
def DOCUMENT_FEATURES : List (Str × List Str) :=
  [(str "cedula", [str "FORMS", str "SIGNATURES"]),
   (str "diploma_bachiller", [str "FORMS", str "TABLES"]),
   (str "diploma_tecnico", [str "FORMS", str "TABLES"]),
   (str "diploma_tecnologo", [str "FORMS", str "TABLES"]),
   (str "titulo_profesional", [str "FORMS", str "TABLES"]),
   (str "prueba_tt", [str "FORMS", str "TABLES", str "LAYOUT"]),
   (str "icfes", [str "FORMS", str "TABLES", str "LAYOUT"]),
   (str "recibo_pago", [str "FORMS", str "TABLES"]),
   (str "encuesta_m0", [str "FORMS"]),
   (str "acta_homologacion", [str "FORMS", str "TABLES"]),
   (str "soporte_prueba_saberProtyt", [str "FORMS", str "TABLES", str "LAYOUT"])]

/-- Property lookup `DOCUMENT_FEATURES[documentType]`. -/
def lookupFeatures (dt : Str) : Option (List Str) :=
  (DOCUMENT_FEATURES.find? (fun kv => kv.1 == dt)).map (·.2)

/-- `SimplifiedTextractService.getFeatureTypesForDocument`. -/
def getFeatureTypesForDocument (documentType : Option Str) : List Str :=
  match documentType with
  | none => [str "FORMS"]
  | some dt =>
    if dt.isEmpty then [str "FORMS"]
    else match lookupFeatures dt with
      | none => [str "FORMS"]
      | some fs => fs

/-- Configuration of an AWS Textract client (`httpOptions`). -/
structure TextractClient where
  timeoutMs : Nat
  retries : Nat
deriving DecidableEq

/-- The module-level `textract` client (timeout 60s, 3 retries). -/
def defaultClient : TextractClient := ⟨60000, 3⟩

/-- The client built inside `analyzeDocumentAsync` (timeout 120s, 5 retries). -/
def extendedClient : TextractClient := ⟨120000, 5⟩

/-- Which client `extractWithAnalyzeDocument` issues the analyze request on,
as a function of the buffer length (`documentBuffer.length <= SYNC_BYTES`
selects the synchronous module client, otherwise `analyzeDocumentAsync` builds
the extended one). -/
def analyzeClientFor (bufLen : Nat) : TextractClient :=
  if bufLen ≤ SYNC_BYTES then defaultClient else extendedClient

/-- One Textract response block. -/
structure Block where
  blockType : Str
  text : Str
  confidence : Option ℚ
deriving DecidableEq

/-- JS truthiness of `block.Confidence` (absent and `0` are falsy). -/
def jsTruthyConf : Option ℚ → Bool
  | none => false
  | some q => !(q == 0)

/-- The text-accumulation loop shared by `extractWithDetectDocument` and
`processAnalyzeResult`: `extractedText += block.Text + " "` for every block of
type `LINE`. -/
def detectAggregateText (blocks : List Block) : Str :=
  blocks.foldl
    (fun acc b => if b.blockType == str "LINE" then acc ++ b.text ++ [' '] else acc) []

/-- The `confidenceSum`/`confidenceCount` accumulation loop. -/
def detectConfStats (blocks : List Block) : ℚ × Nat :=
  blocks.foldl
    (fun p b =>
      if b.blockType == str "LINE" && jsTruthyConf b.confidence then
        (p.1 + b.confidence.getD 0, p.2 + 1)
      else p)
    (0, 0)

/-- The `avgConfidence` the source computes and reports. -/
def avgConfidence (blocks : List Block) : ℚ :=
  let stats := detectConfStats blocks
  if stats.2 > 0 then stats.1 / stats.2 else 0

/-- `SimplifiedTextractService.extractWithDetectDocument`, as a function of the
backend's response (an error from `detectDocumentText` propagates). -/
def extractWithDetectDocument (detectResp : Except Str (List Block)) : Except Str Str :=
  match detectResp with
  | .error e => .error e
  | .ok blocks =>
    let trimmedText := jsTrim (detectAggregateText blocks)
    if trimmedText.isEmpty then .error (str "NO_TEXT_EXTRACTED")
    else .ok trimmedText

/-- `SimplifiedTextractService.processAnalyzeResult`. -/
def processAnalyzeResult (blocks : List Block) : Except Str Str :=
  if blocks.isEmpty then .error (str "NO_TEXT_EXTRACTED")
  else
    let extractedText := jsTrim (detectAggregateText blocks)
    if extractedText.isEmpty then .error (str "NO_TEXT_EXTRACTED")
    else .ok extractedText

/-- The analyze side of `extractWithAnalyzeDocument` before its catch block:
the backend call followed by `processAnalyzeResult`. -/
def analyzeStep (analyzeResp : Except Str (List Block)) : Except Str Str :=
  match analyzeResp with
  | .error e => .error e
  | .ok blocks => processAnalyzeResult blocks

/-- `SimplifiedTextractService.extractWithAnalyzeDocument`: any failure of the
analyze step is caught and answered by one `extractWithDetectDocument` call on
the same buffer (modelled by the same detect response). -/
def extractWithAnalyzeDocument (analyzeResp detectResp : Except Str (List Block)) :
    Except Str Str :=
  match analyzeStep analyzeResp with
  | .ok t => .ok t
  | .error _ => extractWithDetectDocument detectResp

/-! ## Validation (`validateDocument`, `detectFileType`) -/

/-- Indexing into a buffer, JS style: out-of-range reads give `undefined`,
which compares unequal to every byte; we model it as the non-byte 256. -/
def byteAt (buf : List Byte) (i : Nat) : Nat := buf.getD i 256

/-- `SimplifiedTextractService.detectFileType` (magic-byte sniffing). -/
def detectFileType (buf : List Byte) : Str :=
  if byteAt buf 0 == 0x25 && byteAt buf 1 == 0x50 && byteAt buf 2 == 0x44
      && byteAt buf 3 == 0x46 then str "PDF"
  else if byteAt buf 0 == 0x89 && byteAt buf 1 == 0x50 && byteAt buf 2 == 0x4E
      && byteAt buf 3 == 0x47 then str "PNG"
  else if byteAt buf 0 == 0xFF && byteAt buf 1 == 0xD8 && byteAt buf 2 == 0xFF then str "JPEG"
  else if (byteAt buf 0 == 0x49 && byteAt buf 1 == 0x49)
      || (byteAt buf 0 == 0x4D && byteAt buf 1 == 0x4D) then str "TIFF"
  else str "UNKNOWN"

/-- The HTML-header test of `validateDocument` on the first 20 bytes. -/
def isHtmlHeader (buf : List Byte) : Bool :=
  let headerCheck := bufToString (buf.take 20)
  (str "<!DOCTYPE").isPrefixOf headerCheck
  || (str "<html").isPrefixOf headerCheck
  || (str "<!do").isPrefixOf headerCheck

/-- `SimplifiedTextractService.validateDocument`. -/
def validateDocument (documentBuffer : List Byte) : Except Str Unit :=
  if isHtmlHeader documentBuffer then .error (str "HTML_FILE_DETECTED")
  else if documentBuffer.length < 100 then .error (str "DOCUMENT_TOO_SMALL")
  else if documentBuffer.length > ASYNC_BYTES then .error (str "DOCUMENT_TOO_LARGE")
  else if !([str "PDF", str "PNG", str "JPEG", str "TIFF"].contains
      (detectFileType documentBuffer)) then
    .error (str "UNSUPPORTED_FILE_TYPE: " ++ detectFileType documentBuffer)
  else .ok ()

/-! ## Path helpers (the node `path` functions the source uses) -/

/-- node `path.basename(p)`: the part after the last slash. -/
def basename (p : Str) : Str := (p.reverse.takeWhile (fun c => !(c == '/'))).reverse

/-- node `path.dirname(p)`. -/
def dirname (p : Str) : Str :=
  if p.contains '/' = false then str "."
  else
    let d := p.take (p.length - (basename p).length - 1)
    if d.isEmpty then str "/" else d

/-- node `path.join(a, b)` for the simple two-argument uses in the source. -/
def joinPath (a b : Str) : Str := a ++ ['/'] ++ b

/-- Remove `suf` from the end of `p` when it is a suffix (the ext-stripping
behaviour of two-argument `path.basename`). -/
def stripSuffix (p suf : Str) : Str :=
  if suf.isSuffixOf p then p.take (p.length - suf.length) else p

/-- node `path.extname(p)`: the part of the basename from its last dot on
(empty when the basename has no dot). -/
def extnameOf (p : Str) : Str :=
  let b := basename p
  let e := (b.reverse.takeWhile (fun c => !(c == '.'))).reverse
  if e.length == b.length then [] else '.' :: e

/-! ## Environment: oracles for the file system and external collaborators -/

/-- All environment-dependent outcomes of one pipeline invocation: file
contents, availability and results of `pdf2pic`/`sharp`, `fs` operations, and
the two Textract responses. A pure function of this record models one run. -/
structure PipelineEnv where
  files : Str → List Byte
  pathExists : Bool
  ensureDirOk : Bool
  pdf2pic : Except Str (List Str)
  sharpAvailable : Bool
  copyOk : Bool
  optSharpWorks : Bool
  optCopyOk : Bool
  statOk : Str → Bool
  fileSize : Str → Nat
  analyzeResp : Except Str (List Block)
  detectResp : Except Str (List Block)
  fsExists : Str → Bool
  removeOk : Str → Bool

/-! ## Conversion chain (`SimplifiedPDFConverter`) -/

/-- `SimplifiedPDFConverter.convertWithSharp`. First component: the returned
or thrown outcome; second: the files the strategy creates on disk. On success
it COPIES the original PDF to `<base>_converted.png` inside the output
directory but returns `[pdfPath]` — the copy is created yet not returned. -/
def convertWithSharp (env : PipelineEnv) (pdfPath outputDir : Str) :
    Except Str (List Str) × List Str :=
  if env.sharpAvailable = false then (.error (str "Sharp no disponible"), [])
  else
    let fileName := stripSuffix (basename pdfPath) (str ".pdf")
    let outputPath := joinPath outputDir (fileName ++ str "_converted.png")
    if env.copyOk = false then (.error (str "Error con Sharp"), [])
    else (.ok [pdfPath], [outputPath])

/-- `SimplifiedPDFConverter.convertPDFToImages`. First component: the returned
path list (the outer catch turns every error into `[pdfPath]`); second: the
files created on disk by whichever strategy ran. -/
def convertPDFToImages (env : PipelineEnv) (pdfPath outputDir : Str) :
    List Str × List Str :=
  if env.pathExists = false then ([pdfPath], [])
  else if env.ensureDirOk = false then ([pdfPath], [])
  else
    match env.pdf2pic with
    | .ok imagePaths =>
        (if imagePaths.isEmpty then [pdfPath] else imagePaths, imagePaths)
    | .error _ =>
        match convertWithSharp env pdfPath outputDir with
        | (.ok imagePaths, created) =>
            (if imagePaths.isEmpty then [pdfPath] else imagePaths, created)
        | (.error _, created) => ([pdfPath], created)

/-- `SimplifiedTextractService.selectBestImage`: among the non-PDF candidates
pick the one with the largest stat size (stat failures skip the candidate). -/
def selectBestImage (env : PipelineEnv) (imagePaths : List Str) : Str :=
  let actualImages := imagePaths.filter (fun p => !((str ".pdf").isSuffixOf p))
  match actualImages with
  | [] => imagePaths.headD []
  | [single] => single
  | i0 :: _ =>
    (actualImages.foldl
      (fun best p =>
        if env.statOk p && decide (best.2 < env.fileSize p) then (p, env.fileSize p)
        else best)
      (i0, 0)).1

/-- `SimplifiedPDFConverter.optimizeImageForTextract`. First component: the
returned path; second: files created. Sharp optimization and the copy
fallback both produce `<name>_optimized<ext>`; if even the copy fails the
original path is returned and nothing is created. -/
def optimizeImageForTextract (env : PipelineEnv) (imagePath : Str) : Str × List Str :=
  let dir := dirname imagePath
  let ext := extnameOf imagePath
  let name := stripSuffix (basename imagePath) ext
  let outputPath := joinPath dir (name ++ str "_optimized" ++ ext)
  if env.optSharpWorks then (outputPath, [outputPath])
  else if env.optCopyOk then (outputPath, [outputPath])
  else (imagePath, [])

/-- Outcome of `SimplifiedTextractService.attemptPDFConversion`: the returned
or thrown result, the chain's returned paths, the paths pushed onto
`this.generatedImages` (in push order), and the files created on disk. -/
structure ConvOutcome where
  result : Except Str Str
  chainPaths : List Str
  tracked : List Str
  created : List Str

/-- The `<dir>/<base>_converted` output directory `attemptPDFConversion`
builds from the PDF path (`tempDir`, `baseName`, `imageDir`). -/
def imageDirFor (pdfPath : Str) : Str :=
  joinPath (dirname pdfPath) (stripSuffix (basename pdfPath) (str ".pdf") ++ str "_converted")

/-- `SimplifiedTextractService.attemptPDFConversion`. -/
def attemptPDFConversion (env : PipelineEnv) (pdfPath : Str) : ConvOutcome :=
  let imageDir := imageDirFor pdfPath
  if env.ensureDirOk = false then
    { result := .error (str "ensureDir"), chainPaths := [], tracked := [], created := [] }
  else
    let conv := convertPDFToImages env pdfPath imageDir
    let imagePaths := conv.1
    if imagePaths.isEmpty then
      { result := .error (str "No se generaron imagenes"), chainPaths := imagePaths,
        tracked := [], created := conv.2 }
    else
      let tracked1 := imagePaths.filter (fun p => !(p == pdfPath))
      let targetImage :=
        if decide (1 < imagePaths.length)
            && !((str ".pdf").isSuffixOf (imagePaths.headD []))
        then selectBestImage env imagePaths
        else imagePaths.headD []
      if targetImage == pdfPath then
        { result := .ok pdfPath, chainPaths := imagePaths, tracked := tracked1,
          created := conv.2 }
      else
        let opt := optimizeImageForTextract env targetImage
        { result := .ok opt.1, chainPaths := imagePaths,
          tracked := tracked1 ++ (if opt.1 == targetImage then [] else [opt.1]),
          created := conv.2 ++ opt.2 }

/-! ## Artifact cleanup -/

/-- The `imagePath.toLowerCase().endsWith('.pdf')` skip test of
`cleanupGeneratedImages`. -/
def endsWithPdfLower (p : Str) : Bool := (str ".pdf").isSuffixOf (p.map Char.toLower)

/-- `SimplifiedPDFConverter.cleanupGeneratedImages`: returns the list of paths
actually removed. Per-path failures (`removeOk p = false`) are logged and the
loop continues. -/
def cleanupGeneratedImages (env : PipelineEnv) (imagePaths : List Str) : List Str :=
  imagePaths.foldl
    (fun deleted p =>
      if endsWithPdfLower p then deleted
      else if env.fsExists p then
        if env.removeOk p then deleted ++ [p] else deleted
      else deleted)
    []

/-- `SimplifiedTextractService.cleanup`: delete via the converter when the
tracked list is non-empty, then reset `this.generatedImages` to `[]`. Returns
(paths removed, new tracked list). -/
def serviceCleanup (env : PipelineEnv) (generatedImages : List Str) :
    List Str × List Str :=
  if 0 < generatedImages.length then (cleanupGeneratedImages env generatedImages, [])
  else ([], generatedImages)

/-! ## The pipeline (`extractTextFromDocument`) -/

/-- `SimplifiedTextractService.performTextExtraction` on the final file. -/
def performTextExtraction (env : PipelineEnv) (filePath : Str)
    (documentType : Option Str) : Except Str Str :=
  let documentBuffer := env.files filePath
  if shouldUseAnalyzeDocument documentBuffer.length documentType then
    extractWithAnalyzeDocument env.analyzeResp env.detectResp
  else
    extractWithDetectDocument env.detectResp

/-- `SimplifiedTextractService.extractTextFromDocument`: validation, optional
conversion (whose own failures are absorbed), extraction. Returns the
outcome together with the final `this.generatedImages` list. -/
def serviceExtractText (env : PipelineEnv) (filePath : Str)
    (documentType : Option Str) : Except Str Str × List Str :=
  let documentBuffer := env.files filePath
  match validateDocument documentBuffer with
  | .error e => (.error e, [])
  | .ok _ =>
    let shouldTry := shouldAttemptConversion (env.files filePath) documentType documentBuffer
    let finalState :=
      if shouldTry then
        let o := attemptPDFConversion env filePath
        match o.result with
        | .ok convertedPath =>
            (if convertedPath == filePath then filePath else convertedPath, o.tracked)
        | .error _ => (filePath, o.tracked)
      else (filePath, ([] : List Str))
    (performTextExtraction env finalState.1 documentType, finalState.2)

/-- The module-level `extractTextFromDocument` wrapper: run the service method
and, in a `finally`, its `cleanup()`. Returns the propagated outcome and the
paths the cleanup removed. -/
def extractTextFromDocument (env : PipelineEnv) (filePath : Str)
    (documentType : Option Str) : Except Str Str × List Str :=
  let run := serviceExtractText env filePath documentType
  (run.1, (serviceCleanup env run.2).1)

/-! ## General helper lemmas -/

theorem containsSub_subset {hay needle : Str} (h : containsSub hay needle = true) :
    needle ⊆ hay := by
  induction hay with
  | nil =>
    simp only [containsSub, List.isEmpty_iff] at h
    simp [h]
  | cons c t ih =>
    simp only [containsSub, Bool.or_eq_true] at h
    rcases h with h | h
    · exact (List.isPrefixOf_iff_prefix.mp h).subset
    · exact (ih h).trans (List.subset_cons_self c t)

theorem countOcc_eq_zero_of_head_notMem {hay : Str} {c : Char} {rest : Str}
    (h : c ∉ hay) : countOcc hay (c :: rest) = 0 := by
  induction hay with
  | nil => simp [countOcc]
  | cons x t ih =>
    have hcx : ¬(c = x) := fun hc => h (hc ▸ List.mem_cons_self x t)
    have hnotT : c ∉ t := fun hc => h (List.mem_cons_of_mem x hc)
    rw [countOcc]
    have hpre : ((c :: rest).isPrefixOf (x :: t)) = false := by
      simp [List.isPrefixOf, hcx]
    rw [hpre]
    simpa using ih hnotT

/-! ## C1: the conversion decision -/

/-- The concrete 51200-byte buffer for C1: `%PDF-` followed by 51195 spaces.
It satisfies all four conditions of the spec's `shouldConvert` contract. -/
def c1Buffer : List Byte := [37, 80, 68, 70, 45] ++ List.replicate 51195 32

theorem c1Buffer_length : c1Buffer.length = 51200 := by
  rw [c1Buffer, List.length_append, List.length_replicate]
  decide

theorem c1_sample :
    c1Buffer.take (min c1Buffer.length 10000) =
      [37, 80, 68, 70, 45] ++ List.replicate 9995 32 := by
  rw [c1Buffer_length]
  have hmin : min 51200 10000 = 10000 := by norm_num
  rw [hmin, c1Buffer, List.take_append_eq_append_take]
  rw [List.take_of_length_le (by decide), List.take_replicate]
  have hc : min (10000 - List.length [(37 : Byte), 80, 68, 70, 45]) 51195 = 9995 := by decide
  rw [hc]

theorem c1_sample_ascii :
    bufToAscii ([37, 80, 68, 70, 45] ++ List.replicate 9995 32) =
      str "%PDF-" ++ List.replicate 9995 ' ' := by
  have h1 : List.map asciiByte [37, 80, 68, 70, 45] = str "%PDF-" := by decide
  have h2 : asciiByte 32 = ' ' := by decide
  rw [bufToAscii, List.map_append, List.map_replicate, h1, h2]

theorem c1_no_slash : '/' ∉ str "%PDF-" ++ List.replicate 9995 ' ' := by
  intro h
  rcases List.mem_append.mp h with h | h
  · revert h; decide
  · exact absurd (List.eq_of_mem_replicate h) (by decide)

theorem c1_marker_not_found {needle : Str} (hs : '/' ∈ needle) :
    containsSub (str "%PDF-" ++ List.replicate 9995 ' ') needle = false := by
  cases hb : containsSub (str "%PDF-" ++ List.replicate 9995 ' ') needle with
  | false => rfl
  | true => exact absurd (containsSub_subset hb hs) c1_no_slash

theorem c1_quality : (assessPDFQuality c1Buffer).score = 0 := by
  have hs : bufToAscii (c1Buffer.take (min c1Buffer.length 10000)) =
      str "%PDF-" ++ List.replicate 9995 ' ' := by
    rw [c1_sample]; exact c1_sample_ascii
  have h1 := @c1_marker_not_found (str "/Type/Font") (by decide)
  have h2 := @c1_marker_not_found (str "/Subtype/Type1") (by decide)
  have h3 := @c1_marker_not_found (str "/Type/XObject") (by decide)
  have h4 := @c1_marker_not_found (str "/Subtype/Image") (by decide)
  have h5 := @c1_marker_not_found (str "/Filter/FlateDecode") (by decide)
  have h6 : countOcc (str "%PDF-" ++ List.replicate 9995 ' ') (str "/Subtype/Image") = 0 := by
    have hsplit : str "/Subtype/Image" = '/' :: str "Subtype/Image" := by decide
    rw [hsplit]
    exact countOcc_eq_zero_of_head_notMem c1_no_slash
  simp only [assessPDFQuality, hs, h1, h2, h3, h4, h5, h6]
  norm_num

theorem c1_spec_true :
    specShouldConvertConditions c1Buffer (some (str "diploma_bachiller")) c1Buffer = true := by
  have hdecode : bufToString c1Buffer = str "%PDF-" ++ List.replicate 51195 ' ' := by
    have h1 : List.map decodeUtf8Byte [37, 80, 68, 70, 45] = str "%PDF-" := by decide
    have h2 : decodeUtf8Byte 32 = ' ' := by decide
    rw [bufToString, c1Buffer, List.map_append, List.map_replicate, h1, h2]
  have hpre : (str "%PDF").isPrefixOf (bufToString c1Buffer) = true := by
    rw [hdecode]
    simp only [List.isPrefixOf_iff_prefix]
    exact (show str "%PDF" <+: str "%PDF-" from ⟨['-'], by decide⟩).trans
      (List.prefix_append _ _)
  have hmem : CONVERT_TO_IMAGE_TYPES.contains (str "diploma_bachiller") = true := by decide
  simp only [specShouldConvertConditions, hpre, hmem, c1_quality, c1Buffer_length,
    QUALITY_THRESHOLD, MIN_SIZE_FOR_CONVERSION, MAX_SIZE_FOR_CONVERSION]
  norm_num

theorem c1_code_false :
    shouldAttemptConversion c1Buffer (some (str "diploma_bachiller")) c1Buffer = false := by
  have hpdf : isPDF c1Buffer = false := by
    unfold isPDF
    rw [beq_eq_false_iff_ne]
    intro h
    have hlen := congrArg List.length h
    have h4 : (str "%PDF").length = 4 := by decide
    rw [h4] at hlen
    rw [show (bufToString c1Buffer).length = c1Buffer.length from by
      simp [bufToString]] at hlen
    rw [c1Buffer_length] at hlen
    norm_num at hlen
  unfold shouldAttemptConversion
  rw [hpdf]
  simp

/-- C1: the claim says `shouldAttemptConversion` returns true exactly when the
file starts with the `%PDF` signature, the docType is in the allow-list, the
length is within `[minSizeForConversion, maxSizeForConversion]`, and the
quality score is below the threshold. The code is a slip: `isPDF` passes
`{ start: 0, end: 4 }` to `fs.readFile`, which has no such options, so the
WHOLE file is read and compared for equality with `"%PDF"`; on a 51200-byte
buffer starting with `%PDF-` — all four spec conditions hold — the function
returns false. -/
theorem shouldAttemptConversion_rejects_spec_true_input :
    specShouldConvertConditions c1Buffer (some (str "diploma_bachiller")) c1Buffer = true ∧
    shouldAttemptConversion c1Buffer (some (str "diploma_bachiller")) c1Buffer = false :=
  ⟨c1_spec_true, c1_code_false⟩

/-! ## C2: dispatch decision, client choice, default feature set -/

/-- The spec's dispatch condition: docType in the fixed structured set, OR
byte length at least 1 MiB. -/
def specUsesAnalyze (fileSize : Nat) (documentType : Option Str) : Bool :=
  (match documentType with
   | none => false
   | some d => structuredDocuments.contains d)
  || decide (1024 * 1024 ≤ fileSize)

/-- C2: the dispatcher picks the analyze call exactly when the docType is in
the structured set or the byte length is at least 1 MiB; within analyze the
synchronous client (60s, 3 retries) is used exactly when the length is at
most the sync ceiling, otherwise the extended client (120s, 5 retries); an
unknown docType defaults the feature set to the single tag FORMS. -/
theorem dispatch_analyze_and_client_choice (fileSize : Nat) (documentType : Option Str) :
    shouldUseAnalyzeDocument fileSize documentType = specUsesAnalyze fileSize documentType ∧
    analyzeClientFor fileSize =
      (if fileSize ≤ SYNC_BYTES then { timeoutMs := 60000, retries := 3 }
       else { timeoutMs := 120000, retries := 5 }) ∧
    (∀ dt, documentType = some dt → lookupFeatures dt = none →
      getFeatureTypesForDocument documentType = [str "FORMS"]) ∧
    (documentType = none → getFeatureTypesForDocument documentType = [str "FORMS"]) := by
  refine ⟨?_, rfl, ?_, ?_⟩
  · have hsize : ∀ b : Bool,
        (if b = true then true else if fileSize < 1024 * 1024 then false else true)
          = (b || decide (1024 * 1024 ≤ fileSize)) := by
      intro b
      cases b
      · by_cases h : fileSize < 1024 * 1024
        · simp [h, Nat.not_le.mpr h]
        · simp [h, Nat.le_of_not_lt h]
      · simp
    cases documentType with
    | none =>
      unfold shouldUseAnalyzeDocument specUsesAnalyze jsTruthyStr
      simpa using hsize false
    | some s =>
      cases s with
      | nil =>
        unfold shouldUseAnalyzeDocument specUsesAnalyze jsTruthyStr
        have hc : ([] : Str) ∉ structuredDocuments := by decide
        simpa [hc] using hsize false
      | cons a t =>
        unfold shouldUseAnalyzeDocument specUsesAnalyze jsTruthyStr
        simpa using hsize (structuredDocuments.contains (a :: t))
  · intro dt hdt hk
    subst hdt
    unfold getFeatureTypesForDocument
    cases he : dt.isEmpty
    · simp [he, hk]
    · simp [he]
  · intro h
    subst h
    rfl

/-- Witness for C2 at concrete inputs: a 2 MiB unknown docType. -/
theorem dispatch_analyze_and_client_choice_witness :
    (some (str "tipo_desconocido") = some (str "tipo_desconocido")) ∧
    lookupFeatures (str "tipo_desconocido") = none ∧
    getFeatureTypesForDocument (some (str "tipo_desconocido")) = [str "FORMS"] :=
  ⟨rfl, by decide,
    (dispatch_analyze_and_client_choice 2097152 (some (str "tipo_desconocido"))).2.2.1
      (str "tipo_desconocido") rfl (by decide)⟩

/-! ## C3: aggregation of LINE blocks, average confidence, NoTextExtracted -/

/-- Texts of the LINE blocks, in order. -/
def lineTexts (blocks : List Block) : List Str :=
  (blocks.filter (fun b => b.blockType == str "LINE")).map (·.text)

/-- Join a list of strings with a single separating space (the spec's words). -/
def joinWithSpace : List Str → Str
  | [] => []
  | [t] => t
  | t :: ts => t ++ [' '] ++ joinWithSpace ts

/-- Each element followed by one space, concatenated — the shape the code's
`+= text + " "` loop produces. -/
def joinSp (ts : List Str) : Str := ts.foldr (fun t acc => t ++ [' '] ++ acc) []

/-- The spec-side aggregated text: LINE texts joined with a single space,
then trimmed. -/
def specAggregatedText (blocks : List Block) : Str :=
  jsTrim (joinWithSpace (lineTexts blocks))

/-- The claim's average: mean of the Confidence values of the LINE blocks
that CARRY one (present, including zero), 0 when none qualify. -/
def specClaimedAvg (blocks : List Block) : ℚ :=
  let qs := (blocks.filter (fun b => b.blockType == str "LINE" && b.confidence.isSome)).map
    (fun b => b.confidence.getD 0)
  if qs.length = 0 then 0 else qs.sum / qs.length

/-- The amended average: mean over the LINE blocks whose Confidence is
present AND nonzero (JS truthiness), 0 when none qualify. -/
def amendedAvg (blocks : List Block) : ℚ :=
  let qs := (blocks.filter (fun b => b.blockType == str "LINE" && jsTruthyConf b.confidence)).map
    (fun b => b.confidence.getD 0)
  if qs.length = 0 then 0 else qs.sum / qs.length

theorem detectAggregateText_aux (blocks : List Block) (acc : Str) :
    blocks.foldl
        (fun acc b => if b.blockType == str "LINE" then acc ++ b.text ++ [' '] else acc) acc
      = acc ++ joinSp (lineTexts blocks) := by
  induction blocks generalizing acc with
  | nil => simp [joinSp, lineTexts]
  | cons b bs ih =>
    cases hb : (b.blockType == str "LINE")
    · simp only [List.foldl_cons, hb, Bool.false_eq_true, if_false]
      rw [ih]
      simp [lineTexts, List.filter_cons, hb]
    · simp only [List.foldl_cons, hb, if_true]
      rw [ih]
      simp [lineTexts, List.filter_cons, hb, joinSp, List.append_assoc]

theorem joinSp_eq_joinWithSpace (ts : List Str) :
    joinSp ts = joinWithSpace ts ++ (if ts.isEmpty then [] else [' ']) := by
  induction ts with
  | nil => rfl
  | cons t rest ih =>
    cases rest with
    | nil => simp [joinSp, joinWithSpace]
    | cons t2 rest2 =>
      rw [show joinSp (t :: t2 :: rest2) = t ++ [' '] ++ joinSp (t2 :: rest2) from rfl, ih]
      rw [show joinWithSpace (t :: t2 :: rest2)
          = t ++ [' '] ++ joinWithSpace (t2 :: rest2) from rfl]
      simp [List.append_assoc]

theorem trimEnd_append_space (l : Str) : trimEnd (l ++ [' ']) = trimEnd l := by
  unfold trimEnd
  rw [List.reverse_append]
  simp [List.dropWhile, isJsWhitespace]

theorem jsTrim_append_space (l : Str) : jsTrim (l ++ [' ']) = jsTrim l := by
  unfold jsTrim
  rw [trimEnd_append_space]

theorem detectAggregateText_trim (blocks : List Block) :
    jsTrim (detectAggregateText blocks) = specAggregatedText blocks := by
  unfold detectAggregateText specAggregatedText
  rw [detectAggregateText_aux, List.nil_append, joinSp_eq_joinWithSpace]
  cases he : (lineTexts blocks).isEmpty
  · rw [if_neg (by simp [he]), jsTrim_append_space]
  · rw [if_pos (by simp [he]), List.append_nil]

theorem detectConfStats_aux (blocks : List Block) (p : ℚ × Nat) :
    blocks.foldl
        (fun p b =>
          if b.blockType == str "LINE" && jsTruthyConf b.confidence then
            (p.1 + b.confidence.getD 0, p.2 + 1)
          else p) p
      = (p.1 + ((blocks.filter
            (fun b => b.blockType == str "LINE" && jsTruthyConf b.confidence)).map
            (fun b => b.confidence.getD 0)).sum,
         p.2 + (blocks.filter
            (fun b => b.blockType == str "LINE" && jsTruthyConf b.confidence)).length) := by
  induction blocks generalizing p with
  | nil => simp
  | cons b bs ih =>
    cases hb : (b.blockType == str "LINE" && jsTruthyConf b.confidence)
    · simp only [List.foldl_cons, hb, Bool.false_eq_true, if_false]
      rw [ih]
      simp [List.filter_cons, hb]
    · simp only [List.foldl_cons, hb, if_true]
      rw [ih]
      simp only [List.filter_cons, hb, if_true, List.map_cons, List.sum_cons,
        List.length_cons, Prod.mk.injEq]
      constructor
      · ring
      · omega

theorem avgConfidence_eq_amended (blocks : List Block) :
    avgConfidence blocks = amendedAvg blocks := by
  unfold avgConfidence detectConfStats amendedAvg
  rw [detectConfStats_aux]
  simp only [zero_add, Nat.zero_add]
  rcases Nat.eq_zero_or_pos ((blocks.filter
      (fun b => b.blockType == str "LINE" && jsTruthyConf b.confidence)).length) with h | h
  · simp [h]
  · simp [h, Nat.pos_iff_ne_zero.mp h]

/-- Concrete response for the C3 counterexample: one LINE with Confidence 0
and one LINE with Confidence 80. -/
def c3Blocks : List Block :=
  [{ blockType := str "LINE", text := str "a", confidence := some 0 },
   { blockType := str "LINE", text := str "b", confidence := some 80 }]

/-- C3 counterexample: a LINE block carrying Confidence 0 is a line that
"carries one", so the claim's mean over `c3Blocks` is (0+80)/2 = 40 — but the
code's `if (block.Confidence)` truthiness test drops the zero-confidence line
and reports 80. -/
theorem avgConfidence_zero_confidence_counterexample :
    specClaimedAvg c3Blocks = 40 ∧ avgConfidence c3Blocks = 80 ∧
    avgConfidence c3Blocks ≠ specClaimedAvg c3Blocks := by
  have hq1 : (c3Blocks.filter (fun b => b.blockType == str "LINE" && b.confidence.isSome)).map
      (fun b => b.confidence.getD 0) = [0, 80] := by decide
  have hq2 : (c3Blocks.filter
      (fun b => b.blockType == str "LINE" && jsTruthyConf b.confidence)).map
      (fun b => b.confidence.getD 0) = [80] := by decide
  have h1 : specClaimedAvg c3Blocks = 40 := by
    simp only [specClaimedAvg, hq1]
    norm_num
  have h2 : avgConfidence c3Blocks = 80 := by
    rw [avgConfidence_eq_amended]
    simp only [amendedAvg, hq2]
    norm_num
  exact ⟨h1, h2, by rw [h1, h2]; norm_num⟩

/-- C3 (amended): the extraction text equals the LINE texts joined with a
single space and trimmed; the reported average confidence is the mean over
the LINE blocks whose Confidence is present AND NONZERO (JS truthiness; the
claim's "lines that carry one" wrongly includes a present Confidence of 0),
0 when none qualify; and both the detect and the analyze result processing
fail with NO_TEXT_EXTRACTED exactly when the trimmed concatenation is
empty. -/
theorem extraction_aggregation_amended (blocks : List Block) :
    jsTrim (detectAggregateText blocks) = specAggregatedText blocks ∧
    avgConfidence blocks = amendedAvg blocks ∧
    (extractWithDetectDocument (.ok blocks) = .error (str "NO_TEXT_EXTRACTED") ↔
      specAggregatedText blocks = []) ∧
    (processAnalyzeResult blocks = .error (str "NO_TEXT_EXTRACTED") ↔
      specAggregatedText blocks = []) ∧
    (specAggregatedText blocks ≠ [] →
      extractWithDetectDocument (.ok blocks) = .ok (specAggregatedText blocks) ∧
      processAnalyzeResult blocks = .ok (specAggregatedText blocks)) := by
  have htext := detectAggregateText_trim blocks
  have hok : extractWithDetectDocument (.ok blocks) =
      (if (jsTrim (detectAggregateText blocks)).isEmpty = true
       then .error (str "NO_TEXT_EXTRACTED")
       else .ok (jsTrim (detectAggregateText blocks))) := rfl
  refine ⟨htext, avgConfidence_eq_amended blocks, ?_, ?_, ?_⟩
  · rw [hok, htext]
    cases he : (specAggregatedText blocks).isEmpty
    · rw [if_neg (by simp [he])]
      constructor
      · intro h; exact Except.noConfusion h
      · intro h; rw [h] at he; simp at he
    · rw [if_pos (by simp [he])]
      simp [List.isEmpty_iff.mp he]
  · unfold processAnalyzeResult
    cases hb : blocks.isEmpty
    · rw [if_neg (by simp [hb]), htext]
      cases he : (specAggregatedText blocks).isEmpty
      · rw [if_neg (by simp [he])]
        constructor
        · intro h; exact Except.noConfusion h
        · intro h; rw [h] at he; simp at he
      · rw [if_pos (by simp [he])]
        simp [List.isEmpty_iff.mp he]
    · have hb' : blocks = [] := List.isEmpty_iff.mp hb
      subst hb'
      rw [if_pos (by simp)]
      exact ⟨fun _ => rfl, fun _ => rfl⟩
  · intro hne
    have hne' : (specAggregatedText blocks).isEmpty = false := by
      cases he : (specAggregatedText blocks).isEmpty
      · rfl
      · exact absurd (List.isEmpty_iff.mp he) hne
    constructor
    · rw [hok, htext, if_neg (by simp [hne'])]
    · unfold processAnalyzeResult
      have hb : blocks.isEmpty = false := by
        cases hb : blocks.isEmpty
        · rfl
        · exfalso
          apply hne
          have hb' : blocks = [] := List.isEmpty_iff.mp hb
          subst hb'
          rfl
      rw [if_neg (by simp [hb]), htext, if_neg (by simp [hne'])]

/-- Witness for C3 at a concrete response: two LINE blocks give non-empty
aggregated text and a successful detect extraction. -/
theorem extraction_aggregation_amended_witness :
    specAggregatedText c3Blocks ≠ [] ∧
    extractWithDetectDocument (.ok c3Blocks) = .ok (specAggregatedText c3Blocks) :=
  ⟨by decide, ((extraction_aggregation_amended c3Blocks).2.2.2.2 (by decide)).1⟩

/-! ## C4: the conversion chain never fails outward -/

/-- C4: `convertPDFToImages` always returns a non-empty path list, and when no
strategy yields images it degrades to the passthrough `[pdfPath]`. The sharp
strategy structurally yields no images (it returns `[pdfPath]` itself), so
"every strategy fails or yields no images" reduces to pdf2pic failing or
returning an empty list. -/
theorem convertPDFToImages_passthrough (env : PipelineEnv) (pdfPath outputDir : Str) :
    (convertPDFToImages env pdfPath outputDir).1 ≠ [] ∧
    ((∀ paths, env.pdf2pic = .ok paths → paths = []) →
      (convertPDFToImages env pdfPath outputDir).1 = [pdfPath]) := by
  unfold convertPDFToImages
  cases hpe : env.pathExists
  · simp
  · cases hed : env.ensureDirOk
    · simp
    · simp only [Bool.true_eq_false, if_false]
      cases hp : env.pdf2pic with
      | ok paths =>
        cases paths with
        | nil => simp
        | cons q qs =>
          refine ⟨by simp, fun hall => absurd (hall (q :: qs) rfl) (by simp)⟩
      | error e =>
        unfold convertWithSharp
        cases hsa : env.sharpAvailable
        · simp
        · cases hco : env.copyOk
          · simp
          · simp

/-- Environment where every conversion strategy is unavailable. -/
def envAllFail : PipelineEnv :=
  { files := fun _ => []
    pathExists := true
    ensureDirOk := true
    pdf2pic := .error (str "pdf2pic no disponible")
    sharpAvailable := false
    copyOk := false
    optSharpWorks := false
    optCopyOk := false
    statOk := fun _ => true
    fileSize := fun _ => 0
    analyzeResp := .error (str "analyze fallo")
    detectResp := .error (str "detect fallo")
    fsExists := fun _ => false
    removeOk := fun _ => true }

/-- Witness for C4: with pdf2pic and sharp both unavailable the chain returns
exactly the original PDF path. -/
theorem convertPDFToImages_passthrough_witness :
    (convertPDFToImages envAllFail (str "/tmp/doc.pdf") (str "/tmp/out")).1 ≠ [] ∧
    (convertPDFToImages envAllFail (str "/tmp/doc.pdf") (str "/tmp/out")).1
      = [str "/tmp/doc.pdf"] :=
  ⟨(convertPDFToImages_passthrough envAllFail (str "/tmp/doc.pdf") (str "/tmp/out")).1,
   (convertPDFToImages_passthrough envAllFail (str "/tmp/doc.pdf") (str "/tmp/out")).2
     (fun paths h => by simp [envAllFail] at h)⟩

/-! ## C5: the quality assessor -/

/-- The spec's scoring formula (spec section 4.1): +30 for a font/glyph
marker, -20 for image-object markers, +10 for the stream-compression marker,
-15 for more than 2 image-object occurrences, over the sampled prefix. -/
def specQualityScore (buf : List Byte) : Int :=
  let s := bufToAscii (buf.take (min buf.length 10000))
  (if containsSub s (str "/Type/Font") || containsSub s (str "/Subtype/Type1")
    then (30 : Int) else 0)
  - (if containsSub s (str "/Type/XObject") && containsSub s (str "/Subtype/Image")
    then (20 : Int) else 0)
  + (if containsSub s (str "/Filter/FlateDecode") then (10 : Int) else 0)
  - (if 2 < countOcc s (str "/Subtype/Image") then (15 : Int) else 0)

theorem take_min_10000 (buf : List Byte) :
    buf.take (min buf.length 10000) = buf.take 10000 := by
  rcases le_total buf.length 10000 with h | h
  · rw [min_eq_left h, List.take_length, List.take_of_length_le h]
  · rw [min_eq_right h]

/-- C5: `assessPDFQuality` is a pure function of the first
`min(length, 10000)` bytes — two buffers agreeing on their first 10000 bytes
get the same full QualityResult — and its score equals the spec's
four-adjustment formula. (It never fails: it is total by construction; the
source's catch branch is unreachable.) -/
theorem assessPDFQuality_deterministic_and_formula (b1 b2 buf : List Byte)
    (h : b1.take 10000 = b2.take 10000) :
    assessPDFQuality b1 = assessPDFQuality b2 ∧
    (assessPDFQuality buf).score = specQualityScore buf := by
  constructor
  · have hs : bufToAscii (b1.take (min b1.length 10000))
        = bufToAscii (b2.take (min b2.length 10000)) := by
      rw [take_min_10000, take_min_10000, h]
    simp only [assessPDFQuality]
    rw [hs]
  · simp only [assessPDFQuality, specQualityScore]
    split_ifs <;> omega

/-- Witness for C5 at concrete buffers: two buffers equal in their first
10000 bytes (here: equal 4-byte buffers). -/
theorem assessPDFQuality_deterministic_and_formula_witness :
    ([37, 80, 68, 70] : List Byte).take 10000 = ([37, 80, 68, 70] : List Byte).take 10000 ∧
    (assessPDFQuality [37, 80, 68, 70] = assessPDFQuality [37, 80, 68, 70] ∧
      (assessPDFQuality [37, 80, 68, 70]).score = specQualityScore [37, 80, 68, 70]) :=
  ⟨rfl, assessPDFQuality_deterministic_and_formula [37, 80, 68, 70] [37, 80, 68, 70]
    [37, 80, 68, 70] rfl⟩

/-! ## C6: validation -/

theorem ne_unsupported_msg {t x : Str}
    (ht : t.length < (str "UNSUPPORTED_FILE_TYPE: ").length) :
    t ≠ str "UNSUPPORTED_FILE_TYPE: " ++ x := by
  intro h
  have hl := congrArg List.length h
  rw [List.length_append] at hl
  omega

theorem validateDocument_cases (buf : List Byte) :
    (validateDocument buf = .ok () ↔
      (isHtmlHeader buf = false ∧ 100 ≤ buf.length ∧ buf.length ≤ ASYNC_BYTES ∧
       [str "PDF", str "PNG", str "JPEG", str "TIFF"].contains (detectFileType buf) = true)) ∧
    (validateDocument buf = .error (str "HTML_FILE_DETECTED") ↔ isHtmlHeader buf = true) ∧
    (validateDocument buf = .error (str "DOCUMENT_TOO_SMALL") ↔
      (isHtmlHeader buf = false ∧ buf.length < 100)) ∧
    (validateDocument buf = .error (str "DOCUMENT_TOO_LARGE") ↔
      (isHtmlHeader buf = false ∧ 100 ≤ buf.length ∧ ASYNC_BYTES < buf.length)) ∧
    (validateDocument buf = .error (str "UNSUPPORTED_FILE_TYPE: " ++ detectFileType buf) ↔
      (isHtmlHeader buf = false ∧ 100 ≤ buf.length ∧ buf.length ≤ ASYNC_BYTES ∧
       [str "PDF", str "PNG", str "JPEG", str "TIFF"].contains (detectFileType buf) = false)) := by
  have hne1 : str "HTML_FILE_DETECTED" ≠ str "DOCUMENT_TOO_SMALL" := by decide
  have hne2 : str "HTML_FILE_DETECTED" ≠ str "DOCUMENT_TOO_LARGE" := by decide
  have hne3 : str "DOCUMENT_TOO_SMALL" ≠ str "DOCUMENT_TOO_LARGE" := by decide
  have hu1 : ∀ x : Str, str "HTML_FILE_DETECTED" ≠ str "UNSUPPORTED_FILE_TYPE: " ++ x :=
    fun _ => ne_unsupported_msg (by decide)
  have hu2 : ∀ x : Str, str "DOCUMENT_TOO_SMALL" ≠ str "UNSUPPORTED_FILE_TYPE: " ++ x :=
    fun _ => ne_unsupported_msg (by decide)
  have hu3 : ∀ x : Str, str "DOCUMENT_TOO_LARGE" ≠ str "UNSUPPORTED_FILE_TYPE: " ++ x :=
    fun _ => ne_unsupported_msg (by decide)
  unfold validateDocument
  by_cases h1 : isHtmlHeader buf = true
  · rw [if_pos h1]
    refine ⟨?_, ?_, ?_, ?_, ?_⟩ <;> simp [h1, hne1, hne2, hu1]
  · have h1' : isHtmlHeader buf = false := by
      cases hh : isHtmlHeader buf
      · rfl
      · exact absurd hh h1
    rw [if_neg h1]
    by_cases h2 : buf.length < 100
    · rw [if_pos h2]
      have h2' : ¬(100 ≤ buf.length) := by omega
      refine ⟨?_, ?_, ?_, ?_, ?_⟩ <;>
        simp [h1', h2, h2', hne1.symm, hne3, hu2]
    · rw [if_neg h2]
      have h2' : 100 ≤ buf.length := by omega
      by_cases h3 : buf.length > ASYNC_BYTES
      · rw [if_pos h3]
        have h3' : ¬(buf.length ≤ ASYNC_BYTES) := by omega
        refine ⟨?_, ?_, ?_, ?_, ?_⟩ <;>
          simp [h1', h2, h2', h3, h3', hne2.symm, hne3.symm, hu3]
      · rw [if_neg h3]
        have h3' : buf.length ≤ ASYNC_BYTES := by omega
        have h3'' : ¬(ASYNC_BYTES < buf.length) := by omega
        cases h4 : ([str "PDF", str "PNG", str "JPEG", str "TIFF"].contains
            (detectFileType buf))
        · rw [if_pos (by rfl)]
          refine ⟨?_, ?_, ?_, ?_, ?_⟩ <;>
            simp [h1', h2, h2', h3', h3'', hu1, hu2, hu3,
              fun x => (hu1 x).symm, fun x => (hu2 x).symm, fun x => (hu3 x).symm]
        · rw [if_neg (by simp)]
          refine ⟨?_, ?_, ?_, ?_, ?_⟩ <;>
            simp [h1', h2, h2', h3', h3'', hu1, hu2, hu3]

/-- C6: `validateDocument` rejects exactly the HTML-headed buffers
(HTML_FILE_DETECTED, checked first), buffers under 100 bytes
(DOCUMENT_TOO_SMALL), buffers over the async ceiling (DOCUMENT_TOO_LARGE) and
buffers whose magic bytes match none of PDF/PNG/JPEG/TIFF
(UNSUPPORTED_FILE_TYPE); every other buffer passes; and a validation error is
returned to the caller unchanged before any conversion or extraction step
runs (the service result is exactly that error, with no artifact tracked). -/
theorem validateDocument_exactly (buf : List Byte) (env : PipelineEnv) (fp : Str)
    (dt : Option Str) :
    ((validateDocument buf = .ok () ↔
      (isHtmlHeader buf = false ∧ 100 ≤ buf.length ∧ buf.length ≤ ASYNC_BYTES ∧
       [str "PDF", str "PNG", str "JPEG", str "TIFF"].contains (detectFileType buf) = true)) ∧
    (validateDocument buf = .error (str "HTML_FILE_DETECTED") ↔ isHtmlHeader buf = true) ∧
    (validateDocument buf = .error (str "DOCUMENT_TOO_SMALL") ↔
      (isHtmlHeader buf = false ∧ buf.length < 100)) ∧
    (validateDocument buf = .error (str "DOCUMENT_TOO_LARGE") ↔
      (isHtmlHeader buf = false ∧ 100 ≤ buf.length ∧ ASYNC_BYTES < buf.length)) ∧
    (validateDocument buf = .error (str "UNSUPPORTED_FILE_TYPE: " ++ detectFileType buf) ↔
      (isHtmlHeader buf = false ∧ 100 ≤ buf.length ∧ buf.length ≤ ASYNC_BYTES ∧
       [str "PDF", str "PNG", str "JPEG", str "TIFF"].contains (detectFileType buf) = false))) ∧
    (∀ e, validateDocument (env.files fp) = .error e →
      serviceExtractText env fp dt = (.error e, [])) := by
  refine ⟨validateDocument_cases buf, ?_⟩
  intro e he
  simp only [serviceExtractText, he]

/-- Environment whose input file is an HTML page. -/
def envHtml : PipelineEnv :=
  { envAllFail with files := fun _ => (str "<html><body>hola</body></html>").map Char.toNat }

/-- Witness for C6: an HTML buffer is rejected with HTML_FILE_DETECTED, and
the service propagates it unchanged with no artifact tracked. -/
theorem validateDocument_exactly_witness :
    validateDocument ((str "<html><body>hola</body></html>").map Char.toNat)
      = .error (str "HTML_FILE_DETECTED") ∧
    serviceExtractText envHtml (str "/tmp/f.pdf") none
      = (.error (str "HTML_FILE_DETECTED"), []) := by
  have hv : validateDocument ((str "<html><body>hola</body></html>").map Char.toNat)
      = .error (str "HTML_FILE_DETECTED") :=
    (validateDocument_cases _).2.1.mpr (by decide)
  exact ⟨hv, (validateDocument_exactly ((str "<html><body>hola</body></html>").map Char.toNat)
    envHtml (str "/tmp/f.pdf") none).2 (str "HTML_FILE_DETECTED") hv⟩

/-! ## C8: analyze failure falls back to detect exactly once -/

/-- C8: whenever the analyze step (the backend call or its result
processing) fails, the dispatcher answers with exactly one detect call on the
same buffer instead of propagating the analyze error; and an error reaches
the caller only if that detect fallback itself fails. -/
theorem analyze_falls_back_to_detect (analyzeResp detectResp : Except Str (List Block)) :
    ((∃ e, analyzeStep analyzeResp = .error e) →
      extractWithAnalyzeDocument analyzeResp detectResp
        = extractWithDetectDocument detectResp) ∧
    (∀ e, extractWithAnalyzeDocument analyzeResp detectResp = .error e →
      extractWithDetectDocument detectResp = .error e) := by
  constructor
  · rintro ⟨e, he⟩
    unfold extractWithAnalyzeDocument
    rw [he]
  · intro e he
    unfold extractWithAnalyzeDocument at he
    cases h : analyzeStep analyzeResp with
    | ok t =>
      rw [h] at he
      exact Except.noConfusion he
    | error e2 =>
      rw [h] at he
      exact he

/-- Witness for C8: a failing analyze response falls back to a successful
detect response. -/
theorem analyze_falls_back_to_detect_witness :
    analyzeStep (.error (str "ThrottlingException")) = .error (str "ThrottlingException") ∧
    extractWithAnalyzeDocument (.error (str "ThrottlingException"))
        (.ok [{ blockType := str "LINE", text := str "hola", confidence := some 99 }])
      = extractWithDetectDocument
        (.ok [{ blockType := str "LINE", text := str "hola", confidence := some 99 }]) :=
  ⟨rfl,
   (analyze_falls_back_to_detect (.error (str "ThrottlingException"))
     (.ok [{ blockType := str "LINE", text := str "hola", confidence := some 99 }])).1
     ⟨str "ThrottlingException", rfl⟩⟩

/-! ## C9: cleanup never deletes a PDF, survives per-file failures, idempotent -/

theorem map_toLower_pdf_suffix {p : Str} (h : (str ".pdf").isSuffixOf p = true) :
    endsWithPdfLower p = true := by
  unfold endsWithPdfLower
  rw [List.isSuffixOf_iff_suffix] at h ⊢
  obtain ⟨pre, hpre⟩ := h
  refine ⟨pre.map Char.toLower, ?_⟩
  rw [← hpre, List.map_append]
  have : (str ".pdf").map Char.toLower = str ".pdf" := by decide
  rw [this]

/-- The deleted-path list of `cleanupGeneratedImages` is exactly the recorded
paths that are not `.pdf`-suffixed (case-insensitively), exist on disk, and
whose removal succeeds — independent of the failures of the other paths. -/
theorem cleanupGeneratedImages_aux (env : PipelineEnv) (paths : List Str) (acc : List Str) :
    paths.foldl
        (fun deleted p =>
          if endsWithPdfLower p then deleted
          else if env.fsExists p then
            if env.removeOk p then deleted ++ [p] else deleted
          else deleted) acc
      = acc ++ paths.filter
          (fun p => !endsWithPdfLower p && env.fsExists p && env.removeOk p) := by
  induction paths generalizing acc with
  | nil => simp
  | cons p ps ih =>
    by_cases h1 : endsWithPdfLower p = true
    · rw [List.foldl_cons, if_pos h1, ih]
      have : (!endsWithPdfLower p && env.fsExists p && env.removeOk p) = false := by
        simp [h1]
      simp [List.filter_cons, this]
    · have h1' : endsWithPdfLower p = false := by
        cases hh : endsWithPdfLower p
        · rfl
        · exact absurd hh h1
      by_cases h2 : env.fsExists p = true
      · by_cases h3 : env.removeOk p = true
        · rw [List.foldl_cons, if_neg (by simp [h1']), if_pos h2, if_pos h3, ih]
          have : (!endsWithPdfLower p && env.fsExists p && env.removeOk p) = true := by
            simp [h1', h2, h3]
          simp [List.filter_cons, this]
        · have h3' : env.removeOk p = false := by
            cases hh : env.removeOk p
            · rfl
            · exact absurd hh h3
          rw [List.foldl_cons, if_neg (by simp [h1']), if_pos h2, if_neg (by simp [h3']), ih]
          have : (!endsWithPdfLower p && env.fsExists p && env.removeOk p) = false := by
            simp [h3']
          simp [List.filter_cons, this]
      · have h2' : env.fsExists p = false := by
          cases hh : env.fsExists p
          · rfl
          · exact absurd hh h2
        rw [List.foldl_cons, if_neg (by simp [h1']), if_neg (by simp [h2']), ih]
        have : (!endsWithPdfLower p && env.fsExists p && env.removeOk p) = false := by
          simp [h2']
        simp [List.filter_cons, this]

theorem serviceCleanup_deleted (env : PipelineEnv) (paths : List Str) :
    (serviceCleanup env paths).1
      = paths.filter (fun p => !endsWithPdfLower p && env.fsExists p && env.removeOk p) := by
  unfold serviceCleanup
  cases paths with
  | nil => simp
  | cons p ps =>
    rw [if_pos (by simp)]
    unfold cleanupGeneratedImages
    rw [cleanupGeneratedImages_aux]
    simp

/-- C9: cleanup never removes a path with the `.pdf` extension, even when
recorded; a per-file deletion failure does not prevent the deletion of the
other recorded paths (the deleted set is a pointwise filter, each path's fate
independent of the others); and the tracked list is reset, so a second
cleanup call iterates an empty list and deletes nothing. -/
theorem cleanup_pdf_safe_and_idempotent (env : PipelineEnv) (paths : List Str) :
    ((serviceCleanup env paths).1
      = paths.filter (fun p => !endsWithPdfLower p && env.fsExists p && env.removeOk p)) ∧
    (∀ p ∈ (serviceCleanup env paths).1, (str ".pdf").isSuffixOf p = false) ∧
    ((serviceCleanup env paths).2 = [] ∧
      serviceCleanup env (serviceCleanup env paths).2 = ([], [])) := by
  refine ⟨serviceCleanup_deleted env paths, ?_, ?_, ?_⟩
  · intro p hp
    rw [serviceCleanup_deleted env paths] at hp
    have hkeep := List.of_mem_filter hp
    cases hs : (str ".pdf").isSuffixOf p
    · rfl
    · rw [map_toLower_pdf_suffix hs] at hkeep
      simp at hkeep
  · unfold serviceCleanup
    cases paths with
    | nil => simp
    | cons p ps => rw [if_pos (by simp)]
  · have h2 : (serviceCleanup env paths).2 = [] := by
      unfold serviceCleanup
      cases paths with
      | nil => simp
      | cons p ps => rw [if_pos (by simp)]
    rw [h2]
    rfl

/-- Environment for the cleanup witness: every path exists on disk; removing
`/tmp/bad.png` fails, every other removal succeeds. -/
def envArtifacts : PipelineEnv :=
  { envAllFail with
    fsExists := fun _ => true
    removeOk := fun p => !(p == str "/tmp/bad.png") }

/-- Witness for C9: a recorded list holding a `.pdf`, an uppercase `.PDF`, an
existing image whose removal fails, and an existing image whose removal
succeeds: only the last is deleted, and the second call deletes nothing. -/
theorem cleanup_pdf_safe_and_idempotent_witness :
    (serviceCleanup envArtifacts
        [str "/tmp/doc.pdf", str "/tmp/DOC.PDF", str "/tmp/bad.png", str "/tmp/ok.png"]).1
      = [str "/tmp/ok.png"] ∧
    serviceCleanup envArtifacts [] = ([], []) :=
  ⟨by
    rw [(cleanup_pdf_safe_and_idempotent envArtifacts
      [str "/tmp/doc.pdf", str "/tmp/DOC.PDF", str "/tmp/bad.png", str "/tmp/ok.png"]).1]
    decide,
   (cleanup_pdf_safe_and_idempotent envArtifacts []).2.2.2⟩

/-! ## C7: artifact registration -/

theorem headD_mem {l : List Str} (h : l ≠ []) : l.headD [] ∈ l := by
  cases l with
  | nil => exact absurd rfl h
  | cons a t => simp [List.headD]

theorem foldl_best_mem (env : PipelineEnv) (l : List Str) (acc : Str × Nat)
    (S : List Str) (hacc : acc.1 ∈ S) (hl : ∀ p ∈ l, p ∈ S) :
    (l.foldl (fun best p =>
      if env.statOk p && decide (best.2 < env.fileSize p) then (p, env.fileSize p)
      else best) acc).1 ∈ S := by
  induction l generalizing acc with
  | nil => exact hacc
  | cons p ps ih =>
    rw [List.foldl_cons]
    by_cases h : (env.statOk p && decide (acc.2 < env.fileSize p)) = true
    · rw [if_pos h]
      exact ih (p, env.fileSize p) (hl p (by simp)) (fun q hq => hl q (by simp [hq]))
    · rw [if_neg h]
      exact ih acc hacc (fun q hq => hl q (by simp [hq]))

theorem selectBestImage_mem (env : PipelineEnv) (paths : List Str) (h : paths ≠ []) :
    selectBestImage env paths ∈ paths := by
  unfold selectBestImage
  cases hA : paths.filter (fun p => !((str ".pdf").isSuffixOf p)) with
  | nil => exact headD_mem h
  | cons i0 rest =>
    have hi0 : i0 ∈ paths := by
      have hmemf : i0 ∈ paths.filter (fun p => !((str ".pdf").isSuffixOf p)) := by
        rw [hA]
        simp
      exact List.mem_of_mem_filter hmemf
    cases rest with
    | nil => exact hi0
    | cons i1 rest2 =>
      apply foldl_best_mem env _ _ paths hi0
      intro q hq
      have hmemf : q ∈ paths.filter (fun p => !((str ".pdf").isSuffixOf p)) := by
        rw [hA]
        exact hq
      exact List.mem_of_mem_filter hmemf

theorem convertPDFToImages_ne_nil (env : PipelineEnv) (pdfPath outputDir : Str) :
    (convertPDFToImages env pdfPath outputDir).1 ≠ [] := by
  unfold convertPDFToImages
  cases env.pathExists
  · simp
  · cases env.ensureDirOk
    · simp
    · simp only [Bool.true_eq_false, if_false]
      cases env.pdf2pic with
      | ok paths =>
        cases paths with
        | nil => simp
        | cons q qs => simp
      | error e =>
        unfold convertWithSharp
        cases env.sharpAvailable
        · simp
        · cases env.copyOk
          · simp
          · simp

theorem convertPDFToImages_mem {env : PipelineEnv} {pdfPath outputDir p : Str}
    (hp : p ∈ (convertPDFToImages env pdfPath outputDir).1) :
    p = pdfPath ∨ ∃ paths, env.pdf2pic = .ok paths ∧ p ∈ paths := by
  unfold convertPDFToImages at hp
  revert hp
  cases env.pathExists
  · intro hp; simp at hp; exact Or.inl hp
  · cases env.ensureDirOk
    · intro hp; simp at hp; exact Or.inl hp
    · simp only [Bool.true_eq_false, if_false]
      cases env.pdf2pic with
      | ok paths =>
        cases paths with
        | nil => intro hp; simp at hp; exact Or.inl hp
        | cons q qs =>
          intro hp
          simp only [List.isEmpty_cons, Bool.false_eq_true, if_false] at hp
          exact Or.inr ⟨q :: qs, rfl, hp⟩
      | error e =>
        unfold convertWithSharp
        cases env.sharpAvailable
        · intro hp; simp at hp; exact Or.inl hp
        · cases env.copyOk
          · intro hp; simp at hp; exact Or.inl hp
          · intro hp; simp at hp; exact Or.inl hp

theorem append_suffix_self (a b : Str) : b.isSuffixOf (a ++ b) = true := by
  rw [List.isSuffixOf_iff_suffix]
  exact List.suffix_append a b

theorem png_not_pdf {p : Str} (hp : (str ".png").isSuffixOf p = true) :
    (str ".pdf").isSuffixOf p = false := by
  cases hs : (str ".pdf").isSuffixOf p
  · rfl
  · exfalso
    rw [List.isSuffixOf_iff_suffix] at hp hs
    obtain ⟨a, ha⟩ := hp
    obtain ⟨b, hb⟩ := hs
    have h1 : p.getLast? = some 'g' := by
      rw [← ha, List.getLast?_append]
      rw [show (str ".png").getLast? = some 'g' from by decide]
      rfl
    have h2 : p.getLast? = some 'f' := by
      rw [← hb, List.getLast?_append]
      rw [show (str ".pdf").getLast? = some 'f' from by decide]
      rfl
    rw [h1] at h2
    exact absurd (Option.some.inj h2) (by decide)

theorem takeWhile_append_of_all {p : Char → Bool} {l1 l2 : Str} (h : l1.all p = true) :
    (l1 ++ l2).takeWhile p = l1 ++ l2.takeWhile p := by
  induction l1 with
  | nil => simp
  | cons a t ih =>
    rw [List.all_cons, Bool.and_eq_true] at h
    rw [List.cons_append, List.takeWhile_cons, if_pos h.1, ih h.2, List.cons_append]

theorem extnameOf_of_png {t : Str} (h : (str ".png").isSuffixOf t = true) :
    extnameOf t = str ".png" := by
  rw [List.isSuffixOf_iff_suffix] at h
  obtain ⟨a, ha⟩ := h
  have hrev : t.reverse = str "gnp." ++ a.reverse := by
    rw [← ha, List.reverse_append]
    rw [show (str ".png").reverse = str "gnp." from by decide]
  have hbase : basename t
      = ((a.reverse.takeWhile (fun c => !(c == '/'))).reverse) ++ str ".png" := by
    unfold basename
    rw [hrev, takeWhile_append_of_all (by decide), List.reverse_append]
    rw [show (str "gnp.").reverse = str ".png" from by decide]
  simp only [extnameOf]
  rw [hbase]
  have hrev2 : (((a.reverse.takeWhile (fun c => !(c == '/'))).reverse) ++ str ".png").reverse
      = str "gnp" ++ ('.' :: (a.reverse.takeWhile (fun c => !(c == '/')))) := by
    rw [List.reverse_append, List.reverse_reverse]
    rw [show (str ".png").reverse = str "gnp." from by decide]
    rfl
  rw [hrev2, takeWhile_append_of_all (by decide)]
  rw [show List.takeWhile (fun c => !(c == '.'))
      ('.' :: (a.reverse.takeWhile (fun c => !(c == '/')))) = [] from by
    rw [List.takeWhile_cons]
    simp]
  rw [List.append_nil]
  rw [show (str "gnp").reverse = str "png" from by decide]
  rw [show ((str "png").length
      == (((a.reverse.takeWhile (fun c => !(c == '/'))).reverse) ++ str ".png").length)
      = false from by
    rw [beq_eq_false_iff_ne]
    rw [List.length_append]
    have h3 : (str "png").length = 3 := by decide
    have h4 : (str ".png").length = 4 := by decide
    omega]
  simp only [Bool.false_eq_true, if_false]
  decide

theorem joinPath_png_suffix (d n : Str) :
    (str ".png").isSuffixOf (joinPath d (n ++ str ".png")) = true := by
  unfold joinPath
  rw [List.isSuffixOf_iff_suffix]
  exact ⟨d ++ ['/'] ++ n, by simp [List.append_assoc]⟩

theorem optimize_out_png {env : PipelineEnv} {t : Str}
    (h : (str ".png").isSuffixOf t = true) :
    (optimizeImageForTextract env t).1 = t ∨
    (str ".png").isSuffixOf (optimizeImageForTextract env t).1 = true := by
  simp only [optimizeImageForTextract, extnameOf_of_png h]
  by_cases h1 : env.optSharpWorks = true
  · rw [if_pos h1]
    exact Or.inr (joinPath_png_suffix _ _)
  · rw [if_neg h1]
    by_cases h2 : env.optCopyOk = true
    · rw [if_pos h2]
      exact Or.inr (joinPath_png_suffix _ _)
    · rw [if_neg h2]
      exact Or.inl rfl

/-- C7 (amended): every path the conversion chain returns other than the
original PDF is registered with the tracker; the optimizer's output is
registered whenever it is a new path, so a successfully returned converted
path is always tracked when it differs from the original; and the tracked
set never contains the original input path (given that the input ends in
`.pdf` and pdf2pic, configured with `format: png`, returns `.png` files).
The original claim's "no generated file is left unregistered" clause is
dropped: the sharp strategy's on-disk copy is created without being
returned or registered (see the counterexample). -/
theorem attemptPDFConversion_tracking (env : PipelineEnv) (pdfPath : Str)
    (hpdf : (str ".pdf").isSuffixOf pdfPath = true)
    (hpng : ∀ paths q, env.pdf2pic = .ok paths → q ∈ paths →
      (str ".png").isSuffixOf q = true) :
    pdfPath ∉ (attemptPDFConversion env pdfPath).tracked ∧
    (∀ q ∈ (attemptPDFConversion env pdfPath).chainPaths, q ≠ pdfPath →
      q ∈ (attemptPDFConversion env pdfPath).tracked) ∧
    (∀ r, (attemptPDFConversion env pdfPath).result = .ok r → r ≠ pdfPath →
      r ∈ (attemptPDFConversion env pdfPath).tracked) := by
  have hchain : ∀ q ∈ (convertPDFToImages env pdfPath (imageDirFor pdfPath)).1,
      q = pdfPath ∨ (str ".png").isSuffixOf q = true := by
    intro q hq
    rcases convertPDFToImages_mem hq with h | ⟨paths, hok, hmemq⟩
    · exact Or.inl h
    · exact Or.inr (hpng paths q hok hmemq)
  have hnil := convertPDFToImages_ne_nil env pdfPath (imageDirFor pdfPath)
  simp only [attemptPDFConversion]
  set ips := (convertPDFToImages env pdfPath (imageDirFor pdfPath)).1 with hips
  by_cases hed : env.ensureDirOk = false
  · rw [if_pos hed]
    exact ⟨by simp, by simp, fun r hr => absurd hr (by simp)⟩
  · rw [if_neg hed]
    by_cases hie : ips.isEmpty = true
    · rw [if_pos hie]
      refine ⟨by simp, ?_, fun r hr => absurd hr (by simp)⟩
      intro q hq
      rw [List.isEmpty_iff.mp hie] at hq
      simp at hq
    · rw [if_neg hie]
      set tgt := (if decide (1 < ips.length) && !((str ".pdf").isSuffixOf (ips.headD []))
        then selectBestImage env ips else ips.headD []) with htgt
      have htgtmem : tgt ∈ ips := by
        rw [htgt]
        by_cases hc : (decide (1 < ips.length)
            && !((str ".pdf").isSuffixOf (ips.headD []))) = true
        · rw [if_pos hc]; exact selectBestImage_mem env ips hnil
        · rw [if_neg hc]; exact headD_mem hnil
      by_cases heq : (tgt == pdfPath) = true
      · rw [if_pos heq]
        refine ⟨?_, ?_, ?_⟩
        · intro hmem
          have := List.of_mem_filter hmem
          simp at this
        · intro q hq hne
          exact List.mem_filter.mpr ⟨hq, by simp [hne]⟩
        · intro r hr hne
          have hr' : (Except.ok pdfPath : Except Str Str) = Except.ok r := hr
          exact absurd (Except.ok.inj hr').symm hne
      · rw [if_neg heq]
        have htgtne : tgt ≠ pdfPath := by
          intro h
          exact heq (by simp [h])
        have htgtpng : (str ".png").isSuffixOf tgt = true := by
          rcases hchain tgt htgtmem with h | h
          · exact absurd h htgtne
          · exact h
        have hop := @optimize_out_png env tgt htgtpng
        have hopne : (optimizeImageForTextract env tgt).1 ≠ pdfPath := by
          rcases hop with h | h
          · rw [h]; exact htgtne
          · intro hcontra
            rw [hcontra] at h
            have hf := png_not_pdf h
            rw [hf] at hpdf
            exact Bool.noConfusion hpdf
        refine ⟨?_, ?_, ?_⟩
        · intro hmem
          rcases List.mem_append.mp hmem with h | h
          · have := List.of_mem_filter h
            simp at this
          · revert h
            by_cases ho : ((optimizeImageForTextract env tgt).1 == tgt) = true
            · rw [if_pos ho]; simp
            · rw [if_neg ho]
              intro h
              simp at h
              exact hopne h.symm
        · intro q hq hne
          exact List.mem_append.mpr (Or.inl (List.mem_filter.mpr ⟨hq, by simp [hne]⟩))
        · intro r hr hne
          have hr' : (Except.ok (optimizeImageForTextract env tgt).1 : Except Str Str)
              = Except.ok r := hr
          have hreq : (optimizeImageForTextract env tgt).1 = r := Except.ok.inj hr'
          by_cases ho : ((optimizeImageForTextract env tgt).1 == tgt) = true
          · rw [if_pos ho, List.append_nil]
            have htr : r = tgt := by
              rw [← hreq]
              exact beq_iff_eq.mp ho
            rw [htr]
            exact List.mem_filter.mpr ⟨htgtmem, by simp [htgtne]⟩
          · rw [if_neg ho]
            refine List.mem_append.mpr (Or.inr ?_)
            rw [← hreq]
            simp

/-- Environment for the C7 counterexample: pdf2pic unavailable, sharp
available with a succeeding copy. -/
def envSharpCopy : PipelineEnv :=
  { envAllFail with sharpAvailable := true, copyOk := true }

/-- C7 counterexample: the sharp strategy copies the original PDF to
`/tmp/doc_converted/doc_converted.png` — a file it creates on disk — but
returns `[pdfPath]`, so the generated copy is never registered with the
tracker: "no generated file is left unregistered" is false. -/
theorem sharp_copy_generated_but_untracked :
    str "/tmp/doc_converted/doc_converted.png"
      ∈ (attemptPDFConversion envSharpCopy (str "/tmp/doc.pdf")).created ∧
    (attemptPDFConversion envSharpCopy (str "/tmp/doc.pdf")).tracked = [] := by
  constructor
  · decide
  · decide

/-- Environment for the C7 witness: pdf2pic succeeds with one png page. -/
def envPdf2picOk : PipelineEnv :=
  { envAllFail with pdf2pic := .ok [str "/tmp/doc_converted/doc_page.1.png"] }

/-- Witness for C7 at a concrete environment: pdf2pic returns one `.png`
page for `/tmp/doc.pdf`. -/
theorem attemptPDFConversion_tracking_witness :
    (str ".pdf").isSuffixOf (str "/tmp/doc.pdf") = true ∧
    str "/tmp/doc.pdf" ∉ (attemptPDFConversion envPdf2picOk (str "/tmp/doc.pdf")).tracked :=
  ⟨by decide,
   (attemptPDFConversion_tracking envPdf2picOk (str "/tmp/doc.pdf") (by decide)
     (fun paths q hok hq => by
       have hpaths : paths = [str "/tmp/doc_converted/doc_page.1.png"] :=
         (Except.ok.inj hok).symm
       subst hpaths
       simp at hq
       subst hq
       decide)).1⟩

/-! ## C10: wrapper invokes cleanup on both outcomes -/

/-- C10: the module-level wrapper runs `cleanup()` after extraction on both
outcomes: when extraction succeeds the text is returned and the tracked
non-`.pdf` artifacts are removed, and when extraction throws the same cleanup
runs and the original error is propagated to the caller unchanged. -/
theorem wrapper_cleanup_on_both_outcomes (env : PipelineEnv) (fp : Str)
    (dt : Option Str) :
    (∀ e, (serviceExtractText env fp dt).1 = .error e →
      extractTextFromDocument env fp dt
        = (.error e, ((serviceExtractText env fp dt).2).filter
            (fun p => !endsWithPdfLower p && env.fsExists p && env.removeOk p))) ∧
    (∀ t, (serviceExtractText env fp dt).1 = .ok t →
      extractTextFromDocument env fp dt
        = (.ok t, ((serviceExtractText env fp dt).2).filter
            (fun p => !endsWithPdfLower p && env.fsExists p && env.removeOk p))) := by
  constructor
  · intro e he
    simp only [extractTextFromDocument]
    rw [serviceCleanup_deleted, he]
  · intro t ht
    simp only [extractTextFromDocument]
    rw [serviceCleanup_deleted, ht]

/-- Witness for C10 on the error path: the HTML input is rejected, the error
is propagated unchanged, and cleanup ran over the (empty) artifact list. -/
theorem wrapper_cleanup_on_both_outcomes_witness :
    (serviceExtractText envHtml (str "/tmp/f.pdf") none).1
      = .error (str "HTML_FILE_DETECTED") ∧
    extractTextFromDocument envHtml (str "/tmp/f.pdf") none
      = (.error (str "HTML_FILE_DETECTED"),
         ((serviceExtractText envHtml (str "/tmp/f.pdf") none).2).filter
           (fun p => !endsWithPdfLower p && envHtml.fsExists p && envHtml.removeOk p)) := by
  have hv : validateDocument (envHtml.files (str "/tmp/f.pdf"))
      = .error (str "HTML_FILE_DETECTED") :=
    (validateDocument_cases _).2.1.mpr (by decide)
  have hs : (serviceExtractText envHtml (str "/tmp/f.pdf") none).1
      = .error (str "HTML_FILE_DETECTED") := by
    simp only [serviceExtractText, hv]
  exact ⟨hs, (wrapper_cleanup_on_both_outcomes envHtml (str "/tmp/f.pdf") none).1
    (str "HTML_FILE_DETECTED") hs⟩

end LambdaTyT
